import Mathlib

/-!
Verification of the JMAP webmail core (rust-jmap-webmail): a shallow
embedding of the JMAP client's redirect resolution, session discovery,
mail operations, and the session store, together with theorems settling
the specification's claims about them.
-/

namespace JmapWebmail

/-- The three error kinds of `JmapError` in `src/jmap/client.rs`:
`Http`, `Parse`, `Api`, each carrying a message string. -/
inductive JmapError where
  | Http (msg : String)
  | Parse (msg : String)
  | Api (msg : String)
deriving DecidableEq, Repr

/-- `truncate_str` from `src/jmap/client.rs`: the string unchanged when its
length is at most `max_len`, otherwise its prefix of length `max_len`
(modelled at character granularity). -/
def truncate_str (s : String) (max_len : Nat) : String :=
  if s.length ≤ max_len then s else (s.toList.take max_len).asString

/-- Index of the first occurrence of `pat` as a contiguous sublist of `l`
(models Rust `str::find` for a pattern, at character granularity). -/
def findSublist (l pat : List Char) : Option Nat :=
  if pat.isPrefixOf l then some 0
  else
    match l with
    | [] => none
    | _ :: t => (findSublist t pat).map (· + 1)

/-- Index of the last occurrence of character `c` in `l`
(models Rust `str::rfind(char)`, at character granularity). -/
def rfindChar (l : List Char) (c : Char) : Option Nat :=
  match l with
  | [] => none
  | h :: t =>
    match rfindChar t c with
    | some i => some (i + 1)
    | none => if h = c then some 0 else none

/-- `JmapClient::resolve_redirect` from `src/jmap/client.rs`: resolves a
redirect `location` (possibly relative) against `base_url`.
Absolute `http(s)` locations are returned unchanged; a location starting
with `/` is appended to the scheme-and-host part of the base (falling back
to naive concatenation when the base has no `/` after its scheme, and to
the location itself when the base has no `://`); any other location
replaces the final path segment of the base (text after its last `/`),
falling back to the location itself when the base has no `/` at all. -/
def resolve_redirect (base_url location : String) : String :=
  let b := base_url.toList
  let l := location.toList
  if "http://".toList.isPrefixOf l || "https://".toList.isPrefixOf l then
    location
  else if ['/'].isPrefixOf l then
    match findSublist b "://".toList with
    | some idx =>
      let after_scheme := b.drop (idx + 3)
      match findSublist after_scheme ['/'] with
      | some path_start => (b.take (idx + 3 + path_start)).asString ++ location
      | none => base_url ++ location
    | none => location
  else
    match rfindChar b '/' with
    | some last_slash => (b.take last_slash).asString ++ "/" ++ location
    | none => location

/-! ## Session discovery: the manual redirect-follow loop -/

/-- The outcome of one `ureq` GET as seen by
`fetch_with_auth_following_redirects` in `src/jmap/client.rs`:
`Ok(resp)` with a status, optional `location` header and body;
`Err(ureq::Error::Status(code, resp))` likewise; or any other
`ureq::Error` carrying only a message. -/
inductive UreqResult where
  | ok (status : Nat) (location : Option String) (body : String)
  | errStatus (code : Nat) (location : Option String) (body : String)
  | errOther (msg : String)
deriving DecidableEq, Repr

/-- The decision the loop body takes after one GET: follow a redirect to a
new URL, or finish with a result. -/
inductive StepAction where
  | follow (newUrl : String)
  | done (res : Except JmapError (String × String))
deriving Repr

/-- One iteration of the loop body of
`JmapClient::fetch_with_auth_following_redirects` (`src/jmap/client.rs`):
a 3xx with a `location` header (whether delivered as `Ok` or as
`Err(Status)`) is followed through `resolve_redirect`; a 3xx without one
is a fatal `Http` error; any other `Ok` status returns the body unless it
is empty (empty body is an `Http` error); `Err(Status 401)` is the
distinguished authentication failure; other `Err(Status)` codes become an
`Http` error carrying the code and a 200-character body excerpt; any other
transport error becomes an `Http` error with its message. -/
def fetchStep (currentUrl : String) (r : UreqResult) : StepAction :=
  match r with
  | .ok status location body =>
    if 300 ≤ status ∧ status < 400 then
      match location with
      | some loc => .follow (resolve_redirect currentUrl loc)
      | none => .done (.error (.Http
          ("Redirect " ++ toString status ++ " without Location header")))
    else if body.isEmpty then
      .done (.error (.Http
        ("Server returned empty response (status " ++ toString status ++ ")")))
    else
      .done (.ok (currentUrl, body))
  | .errStatus code location body =>
    if 300 ≤ code ∧ code < 400 then
      match location with
      | some loc => .follow (resolve_redirect currentUrl loc)
      | none => .done (.error (.Http
          ("Redirect " ++ toString code ++ " without Location header")))
    else if code = 401 then
      .done (.error (.Http "Authentication failed (401 Unauthorized)"))
    else
      .done (.error (.Http ("HTTP " ++ toString code ++ " error: " ++
        (if body.isEmpty then "(empty response)" else truncate_str body 200))))
  | .errOther msg => .done (.error (.Http msg))

/-- A server oracle: the `UreqResult` delivered for the `i`-th GET issued
(0-based), given the URL it targets. -/
def Server : Type := Nat → String → UreqResult

/-- The bounded loop of `fetch_with_auth_following_redirects`, with
`fuel` iterations remaining and `sent` GETs already issued. Returns the
final result together with the total number of GETs issued. Exhausting
the bound yields `Http "Too many redirects"`. -/
def fetchGo (server : Server) : Nat → Nat → String →
    Except JmapError (String × String) × Nat
  | 0, sent, _ => (.error (.Http "Too many redirects"), sent)
  | fuel + 1, sent, currentUrl =>
    match fetchStep currentUrl (server sent currentUrl) with
    | .follow u => fetchGo server fuel (sent + 1) u
    | .done res => (res, sent + 1)

/-- `JmapClient::fetch_with_auth_following_redirects` over a server
oracle: runs the redirect loop from `url` for at most `max_redirects`
GETs, returning the result and the number of GETs issued. -/
def fetch_with_auth_following_redirects (server : Server) (url : String)
    (max_redirects : Nat) : Except JmapError (String × String) × Nat :=
  fetchGo server max_redirects 0 url

/-- The hop bound `JmapClient::discover` passes to
`fetch_with_auth_following_redirects` (`src/jmap/client.rs` line 177). -/
def discoverMaxRedirects : Nat := 5

/-- The network phase of `JmapClient::discover`: the redirect-following
fetch with the fixed hop bound of 5. -/
def discover_fetch (server : Server) (well_known_url : String) :
    Except JmapError (String × String) × Nat :=
  fetch_with_auth_following_redirects server well_known_url discoverMaxRedirects

/-- A GET outcome that is a 3xx status carrying a `location` header,
whether `ureq` delivers it as `Ok` or as `Err(Status)`. -/
def redirectWithLocation (r : UreqResult) : Prop :=
  match r with
  | .ok status (some _) _ => 300 ≤ status ∧ status < 400
  | .errStatus code (some _) _ => 300 ≤ code ∧ code < 400
  | _ => False

/-! ## Session descriptor and mail-account resolution -/

/-- The JMAP mail capability URN. -/
def mailCapability : String := "urn:ietf:params:jmap:mail"

/-- Association-list lookup: the value of the first pair whose key is `k`
(models map lookup; insertion order is the list order). -/
def alookup {α : Type} (m : List (String × α)) (k : String) : Option α :=
  match m with
  | [] => none
  | (k', v) :: t => if k' = k then some v else alookup t k

/-- Modelled from the spec: the `JmapSession` session descriptor
(`src/jmap/types.rs` is not in the source tree; §3 of the spec gives
apiUrl, `primaryAccounts` as a mapping capability-URN → account id, and
`accounts` as a mapping account id → set of capabilities, both mappings
preserving insertion order). Mappings are association lists in insertion
order; an account's capability set is its list of capability URNs. -/
structure JmapSession where
  api_url : String
  primary_accounts : List (String × String)
  accounts : List (String × List String)
deriving DecidableEq, Repr

/-- Modelled from the spec: `JmapSession::mail_account_id`
(declared in the missing `src/jmap/types.rs`; spec §4.2 step 5): prefer
`primaryAccounts["urn:ietf:params:jmap:mail"]`; if absent, the first
account, in insertion order, whose capability set contains the mail
capability; otherwise none. -/
def JmapSession.mail_account_id (s : JmapSession) : Option String :=
  match alookup s.primary_accounts mailCapability with
  | some id => some id
  | none =>
    (s.accounts.find? (fun p => p.2.contains mailCapability)).map (·.1)

/-- The "no mail account found" `Api` error message built by
`JmapClient::discover` (`src/jmap/client.rs` lines 188-202) from the
primary-capability keys, the account ids and a 500-character excerpt of
the raw response. -/
def noMailAccountMsg (primary_caps account_ids : List String)
    (response_text : String) : String :=
  "No mail account found. primaryAccounts: " ++ toString primary_caps ++
    ", accounts: " ++ toString account_ids ++ ". Full response: " ++
    truncate_str response_text 500

/-- The account-resolution step of `JmapClient::discover`
(`src/jmap/client.rs` lines 186-203): `session.mail_account_id()`, or an
`Api` error enumerating the primary-capability keys and account ids. -/
def discover_account_id (session : JmapSession) (response_text : String) :
    Except JmapError String :=
  match session.mail_account_id with
  | some id => .ok id
  | none => .error (.Api (noMailAccountMsg
      (session.primary_accounts.map (·.1)) (session.accounts.map (·.1))
      response_text))

/-! ## Mail data types and method responses -/

/-- An email address entry (spec §3: `{name?, email?}`). -/
structure EmailAddress where
  name : Option String
  email : Option String
deriving DecidableEq, Repr

/-- A mailbox (spec §3). -/
structure Mailbox where
  id : String
  name : String
  role : Option String
  total_emails : Nat
  unread_emails : Nat
deriving DecidableEq, Repr

/-- An email (spec §3): id, address lists, optional subject, receivedAt,
preview, text-body part ids, bodyValues mapping part id → text, and
keywords mapping keyword → flag. -/
structure Email where
  id : String
  from_ : List EmailAddress
  to_ : List EmailAddress
  cc : List EmailAddress
  subject : Option String
  received_at : String
  preview : String
  text_body : List String
  body_values : List (String × String)
  keywords : List (String × Bool)
deriving DecidableEq, Repr

/-- `MailboxGetResponse` (`Mailbox/get` result): its `list` field. -/
structure MailboxGetResponse where
  list : List Mailbox
deriving DecidableEq, Repr

/-- `EmailQueryResponse` (`Email/query` result): ids, position, total. -/
structure EmailQueryResponse where
  ids : List String
  position : Nat
  total : Option Nat
deriving DecidableEq, Repr

/-- `EmailGetResponse` (`Email/get` result): `list` and `notFound`. -/
structure EmailGetResponse where
  list : List Email
  not_found : List String
deriving DecidableEq, Repr

/-- The payload of one entry of `methodResponses`, as the typed value
`serde_json::from_value` would decode it to; `other` stands for any JSON
value that decodes to none of the three expected result shapes. -/
inductive MethodResult where
  | mailboxGet (r : MailboxGetResponse)
  | emailQuery (r : EmailQueryResponse)
  | emailGet (r : EmailGetResponse)
  | other
deriving DecidableEq, Repr

/-- A parsed `JmapResponse`: the `methodResponses` array, each entry a
method name paired with its result payload. -/
structure JmapResponse where
  method_responses : List (String × MethodResult)
deriving DecidableEq, Repr

/-! ## Mail operations

Each operation issues at most one `call` (POST to the API endpoint);
the transport is abstracted as the `Except`-valued outcome that one call
would produce, and each operation returns its result paired with the
number of calls it issued. -/

/-- Decoding a method-response payload as a `MailboxGetResponse`
(`serde_json::from_value`): any other shape is a `Parse` error. -/
def decodeMailboxGet (m : MethodResult) : Except JmapError MailboxGetResponse :=
  match m with
  | .mailboxGet r => .ok r
  | _ => .error (.Parse "invalid Mailbox/get result shape")

/-- Decoding a method-response payload as an `EmailQueryResponse`. -/
def decodeEmailQuery (m : MethodResult) : Except JmapError EmailQueryResponse :=
  match m with
  | .emailQuery r => .ok r
  | _ => .error (.Parse "invalid Email/query result shape")

/-- Decoding a method-response payload as an `EmailGetResponse`. -/
def decodeEmailGet (m : MethodResult) : Except JmapError EmailGetResponse :=
  match m with
  | .emailGet r => .ok r
  | _ => .error (.Parse "invalid Email/get result shape")

/-- `JmapClient::get_mailboxes` (`src/jmap/client.rs` lines 276-308) over
an abstract transport: one `Mailbox/get` call; the first entry of
`methodResponses` must exist and be named `Mailbox/get`, in which case its
payload is decoded and its `list` returned; otherwise the operation fails
with `Api "Unexpected response"`. -/
def get_mailboxes (transport : Except JmapError JmapResponse) :
    Except JmapError (List Mailbox) × Nat :=
  match transport with
  | .error e => (.error e, 1)
  | .ok response =>
    match response.method_responses.head? with
    | some mr =>
      if mr.1 = "Mailbox/get" then
        match decodeMailboxGet mr.2 with
        | .ok r => (.ok r.list, 1)
        | .error e => (.error e, 1)
      else (.error (.Api "Unexpected response"), 1)
    | none => (.error (.Api "Unexpected response"), 1)

/-- `JmapClient::query_emails` (`src/jmap/client.rs` lines 310-360) over
an abstract transport: one `Email/query` call; the first entry of
`methodResponses` must exist and be named `Email/query`, in which case its
payload is decoded and its `ids` returned; otherwise the operation fails
with `Api "Unexpected response"`. -/
def query_emails (transport : Except JmapError JmapResponse) :
    Except JmapError (List String) × Nat :=
  match transport with
  | .error e => (.error e, 1)
  | .ok response =>
    match response.method_responses.head? with
    | some mr =>
      if mr.1 = "Email/query" then
        match decodeEmailQuery mr.2 with
        | .ok r => (.ok r.ids, 1)
        | .error e => (.error e, 1)
      else (.error (.Api "Unexpected response"), 1)
    | none => (.error (.Api "Unexpected response"), 1)

/-- `JmapClient::get_emails` (`src/jmap/client.rs` lines 362-427) over an
abstract transport: an empty id list short-circuits to `Ok []` with zero
calls; otherwise one `Email/get` call whose first response entry must be
named `Email/get`, in which case its payload is decoded and its `list`
returned (a count mismatch with the requested ids is only logged, never
an error); otherwise `Api "Unexpected response"`. -/
def get_emails (transport : Except JmapError JmapResponse)
    (ids : List String) : Except JmapError (List Email) × Nat :=
  if ids.isEmpty then (.ok [], 0)
  else
    match transport with
    | .error e => (.error e, 1)
    | .ok response =>
      match response.method_responses.head? with
      | some mr =>
        if mr.1 = "Email/get" then
          match decodeEmailGet mr.2 with
          | .ok r => (.ok r.list, 1)
          | .error e => (.error e, 1)
        else (.error (.Api "Unexpected response"), 1)
      | none => (.error (.Api "Unexpected response"), 1)

/-- The missing-id diagnostic of `handle_emails`
(`src/handlers/mod.rs` lines 381-388): the requested ids that are not
among the ids of the returned emails. -/
def missing_ids (ids : List String) (emails : List Email) : List String :=
  ids.filter (fun id => !((emails.map Email.id).contains id))

/-! ## Session store (`src/session.rs`)

The store's `HashMap<Uuid, Session>` state is modelled as an association
list from tokens to records; the lock discipline serialises operations,
so each operation is a pure state transformer. The fresh Uuid that
`create` draws from `Uuid::now_v7()` is passed in as a parameter. -/

/-- A session token (`Uuid` in the source), modelled opaquely. -/
def Token : Type := Nat

instance : DecidableEq Token := inferInstanceAs (DecidableEq Nat)

/-- The `Session` record (`src/session.rs` lines 5-11). -/
structure Session where
  username : String
  password : String
  api_url : String
  account_id : String
  download_url : Option String
deriving DecidableEq, Repr

/-- The session-store state: the map from token to record. -/
def StoreState : Type := List (Token × Session)

/-- Map lookup on the store state (`HashMap::get`). -/
def storeLookup (s : StoreState) (id : Token) : Option Session :=
  match s with
  | [] => none
  | (k, v) :: t => if k = id then some v else storeLookup t id

/-- `SessionStore::create` (`src/session.rs` lines 24-28): insert the
record under the freshly generated token `id` (`HashMap::insert`
replaces any previous entry for that key) and return the token. -/
def SessionStore.create (s : StoreState) (id : Token) (session : Session) :
    Token × StoreState :=
  (id, (id, session) :: s.filter (fun p => p.1 ≠ id))

/-- `SessionStore::get` (`src/session.rs` lines 30-35): look up the record
and apply the projector, returning the projected value by copy. -/
def SessionStore.get {R : Type} (s : StoreState) (id : Token)
    (f : Session → R) : Option R :=
  (storeLookup s id).map f

/-- `SessionStore::remove` (`src/session.rs` lines 37-39): delete the
entry, returning the prior record if present, and the new state. -/
def SessionStore.remove (s : StoreState) (id : Token) :
    Option Session × StoreState :=
  (storeLookup s id, s.filter (fun p => p.1 ≠ id))

/-- `SessionStore::exists` (`src/session.rs` lines 41-43): membership. -/
def SessionStore.exists (s : StoreState) (id : Token) : Bool :=
  (storeLookup s id).isSome

/-! ## Helper lemmas -/

/-- Filtering out every pair keyed `t` leaves nothing for `storeLookup t`. -/
theorem storeLookup_filter_self (s : StoreState) (t : Token) :
    storeLookup (s.filter (fun p => p.1 ≠ t)) t = none := by
  induction s with
  | nil => rfl
  | cons h tl ih =>
    simp only [List.filter_cons, ne_eq, decide_not] at ih ⊢
    by_cases hk : h.1 = t
    · simp [hk, ih]
    · simp [hk, storeLookup, ih]

/-- Filtering out pairs keyed `t` does not change lookups at other keys. -/
theorem storeLookup_filter_other (s : StoreState) (t t' : Token)
    (h : t' ≠ t) :
    storeLookup (s.filter (fun p => p.1 ≠ t)) t' = storeLookup s t' := by
  induction s with
  | nil => rfl
  | cons hd tl ih =>
    simp only [List.filter_cons, ne_eq, decide_not] at ih ⊢
    by_cases hk : hd.1 = t
    · have hne : hd.1 ≠ t' := by rw [hk]; exact fun hh => h hh.symm
      simp [hk, storeLookup, hne, Ne.symm h, ih]
    · by_cases hk' : hd.1 = t'
      · rw [if_pos (by simp [hk])]
        simp [storeLookup, hk']
      · rw [if_pos (by simp [hk])]
        simp [storeLookup, hk', ih]

/-- A redirect-with-location response makes the loop body follow. -/
theorem fetchStep_follow_of_redirect (url : String) (r : UreqResult)
    (h : redirectWithLocation r) :
    ∃ u2, fetchStep url r = .follow u2 := by
  cases r with
  | ok s loc b =>
    cases loc with
    | none => exact False.elim h
    | some l =>
      refine ⟨resolve_redirect url l, ?_⟩
      simp only [fetchStep]
      rw [if_pos (show 300 ≤ s ∧ s < 400 from h)]
  | errStatus c loc b =>
    cases loc with
    | none => exact False.elim h
    | some l =>
      refine ⟨resolve_redirect url l, ?_⟩
      simp only [fetchStep]
      rw [if_pos (show 300 ≤ c ∧ c < 400 from h)]
  | errOther m => exact False.elim h

/-- When every response is a 3xx with a location, the loop spends all its
fuel, issuing exactly one GET per unit of fuel, and fails with
`Http "Too many redirects"`. -/
theorem fetchGo_all_redirects (server : Server)
    (h : ∀ i u, redirectWithLocation (server i u)) :
    ∀ (fuel sent : Nat) (url : String),
      fetchGo server fuel sent url =
        (.error (.Http "Too many redirects"), sent + fuel) := by
  intro fuel
  induction fuel with
  | zero => intro sent url; rfl
  | succ n ih =>
    intro sent url
    obtain ⟨u2, hstep⟩ := fetchStep_follow_of_redirect url (server sent url)
      (h sent url)
    have harith : sent + 1 + n = sent + (n + 1) := by omega
    simp only [fetchGo, hstep, ih (sent + 1) u2, harith]

/-- After `j` redirect-with-location responses the loop is still running:
it has issued `j` GETs and continues from some URL with `j` less fuel. -/
theorem fetchGo_skip_redirects (server : Server) :
    ∀ (j fuel sent : Nat) (url : String),
      (∀ i u, i < j → redirectWithLocation (server (sent + i) u)) →
      j ≤ fuel →
      ∃ url2, fetchGo server fuel sent url =
        fetchGo server (fuel - j) (sent + j) url2 := by
  intro j
  induction j with
  | zero => intro fuel sent url h hj; exact ⟨url, by simp⟩
  | succ m ih =>
    intro fuel sent url h hj
    cases fuel with
    | zero => omega
    | succ f =>
      have hr : redirectWithLocation (server sent url) := by
        have := h 0 url (Nat.succ_pos m)
        simpa using this
      obtain ⟨u2, hstep⟩ := fetchStep_follow_of_redirect url _ hr
      obtain ⟨url3, heq⟩ := ih f (sent + 1) u2
        (fun i u hi => by
          have := h (i + 1) u (Nat.succ_lt_succ hi)
          have harith : sent + (i + 1) = sent + 1 + i := by omega
          rwa [harith] at this)
        (Nat.lt_succ_iff.mp (Nat.lt_of_lt_of_le (Nat.lt_succ_self m) hj))
      refine ⟨url3, ?_⟩
      have e1 : f - m = f + 1 - (m + 1) := by omega
      have e2 : sent + 1 + m = sent + (m + 1) := by omega
      rw [e1, e2] at heq
      simp only [fetchGo, hstep, heq]

/-- `List.find?` returns the element at the first index satisfying the
predicate: if index `k` satisfies it and every earlier index does not,
`find?` returns the element at `k`. -/
theorem find?_eq_get_of_first {α : Type} (l : List α) (p : α → Bool) :
    ∀ (k : Nat) (hk : k < l.length),
      p (l.get ⟨k, hk⟩) = true →
      (∀ j (hj : j < k), p (l.get ⟨j, Nat.lt_trans hj hk⟩) = false) →
      l.find? p = some (l.get ⟨k, hk⟩) := by
  induction l with
  | nil => intro k hk; exact absurd hk (by simp)
  | cons a t ih =>
    intro k hk hp hbefore
    cases k with
    | zero =>
      simp only [List.get] at hp
      simp [List.find?, hp]
    | succ m =>
      have ha : p a = false := hbefore 0 (Nat.succ_pos m)
      simp only [List.find?, ha]
      have hm : m < t.length := Nat.lt_of_succ_lt_succ hk
      exact ih m hm hp
        (fun j hj => hbefore (j + 1) (Nat.succ_lt_succ hj))

/-! ## Claim theorems -/

/-- C9: for every session-store state and every token, immediately after
`remove(t)` the membership test `exists(t)` is false and `get(t, f)`
returns none for every projector `f`, whether or not `t` was present
before the removal. -/
theorem sessionStore_remove_absent (s : StoreState) (t : Token) :
    SessionStore.exists (SessionStore.remove s t).2 t = false ∧
    ∀ {R : Type} (f : Session → R),
      SessionStore.get (SessionStore.remove s t).2 t f = none := by
  constructor
  · simp only [SessionStore.exists, SessionStore.remove,
      storeLookup_filter_self, Option.isSome_none]
  · intro R f
    simp only [SessionStore.get, SessionStore.remove,
      storeLookup_filter_self, Option.map_none']

/-- C10: if `create(r)` returns token `t`, then `exists(t)` is true and
`get(t, f)` returns `some (f r)` for every projector `f`, while the record
stored under every other token is unchanged by the create. -/
theorem sessionStore_create_spec (s : StoreState) (id : Token)
    (r : Session) :
    SessionStore.exists (SessionStore.create s id r).2
      (SessionStore.create s id r).1 = true ∧
    (∀ {R : Type} (f : Session → R),
      SessionStore.get (SessionStore.create s id r).2
        (SessionStore.create s id r).1 f = some (f r)) ∧
    (∀ t', t' ≠ (SessionStore.create s id r).1 →
      storeLookup (SessionStore.create s id r).2 t' = storeLookup s t') := by
  refine ⟨?_, ?_, ?_⟩
  · simp [SessionStore.exists, SessionStore.create, storeLookup]
  · intro R f
    simp [SessionStore.get, SessionStore.create, storeLookup]
  · intro t' ht'
    have ht2 : t' ≠ id := ht'
    simp only [SessionStore.create, storeLookup]
    rw [if_neg (fun hh => ht2 hh.symm)]
    exact storeLookup_filter_other s id t' ht2

/-- C10 witness: a concrete instantiation of `sessionStore_create_spec`. -/
theorem sessionStore_create_spec_witness :
    storeLookup
      (SessionStore.create [((2 : Nat), ⟨"u2", "p2", "a2", "i2", none⟩)]
        (1 : Nat) ⟨"u", "p", "a", "i", none⟩).2 (2 : Nat) =
      storeLookup [((2 : Nat), ⟨"u2", "p2", "a2", "i2", none⟩)] (2 : Nat) :=
  (sessionStore_create_spec [((2 : Nat), ⟨"u2", "p2", "a2", "i2", none⟩)]
    (1 : Nat) ⟨"u", "p", "a", "i", none⟩).2.2 (2 : Nat) (by decide)

/-- C2: when every GET issued during discovery is answered with a 3xx
status carrying a `Location` header, the discovery fetch issues exactly 5
GETs — the fixed hop bound — and fails with
`Http "Too many redirects"`. -/
theorem discover_fetch_all_redirects (server : Server) (url : String)
    (h : ∀ i u, redirectWithLocation (server i u)) :
    discover_fetch server url =
      (.error (.Http "Too many redirects"), 5) :=
  fetchGo_all_redirects server h 5 0 url

/-- C2 witness: a server answering every GET with `301` and a location
exhausts the 5-hop bound exactly. -/
theorem discover_fetch_all_redirects_witness :
    discover_fetch (fun _ _ => .ok 301 (some "/next") "moved")
      "https://mail.example.com/.well-known/jmap" =
      (.error (.Http "Too many redirects"), 5) :=
  discover_fetch_all_redirects (fun _ _ => .ok 301 (some "/next") "moved")
    "https://mail.example.com/.well-known/jmap"
    (fun _ _ => (by decide : (300 : Nat) ≤ 301 ∧ (301 : Nat) < 400))

/-- C3: if the first `k` hops of the discovery loop are redirects with a
location and hop `k` (within the hop bound) is answered with status 401,
the fetch fails with the distinguished authentication-failure error and
exactly `k + 1` GETs are issued — none for any subsequent hop. -/
theorem discover_fetch_401 (server : Server) (url : String) (k : Nat)
    (hk : k < 5)
    (hred : ∀ i u, i < k → redirectWithLocation (server i u))
    (h401 : ∀ u, ∃ loc body, server k u = .errStatus 401 loc body) :
    discover_fetch server url =
      (.error (.Http "Authentication failed (401 Unauthorized)"), k + 1) := by
  obtain ⟨url2, heq⟩ := fetchGo_skip_redirects server k 5 0 url
    (fun i u hi => by simpa using hred i u hi) (by omega)
  obtain ⟨loc, body, hs⟩ := h401 url2
  obtain ⟨m, hm⟩ : ∃ m, 5 - k = m + 1 := ⟨4 - k, by omega⟩
  have hstep : fetchStep url2 (server k url2) =
      .done (.error (.Http "Authentication failed (401 Unauthorized)")) := by
    rw [hs]
    simp only [fetchStep]
    rw [if_neg (by omega : ¬((300 : Nat) ≤ 401 ∧ (401 : Nat) < 400))]
    simp
  have : discover_fetch server url = fetchGo server (5 - k) (0 + k) url2 :=
    heq
  rw [this, hm]
  simp only [fetchGo, hstep, Nat.zero_add]

/-- C3 witness: one redirect then a 401 fails with the authentication
error after exactly 2 GETs. -/
theorem discover_fetch_401_witness :
    discover_fetch
      (fun i _ => if i = 0 then .ok 302 (some "https://b/s") "" else
        .errStatus 401 none "denied")
      "https://a/.well-known/jmap" =
      (.error (.Http "Authentication failed (401 Unauthorized)"), 2) :=
  discover_fetch_401
    (fun i _ => if i = 0 then .ok 302 (some "https://b/s") "" else
      .errStatus 401 none "denied")
    "https://a/.well-known/jmap" 1 (by omega)
    (fun i u hi => by
      have hi0 : i = 0 := by omega
      subst hi0
      exact (by decide : (300 : Nat) ≤ 302 ∧ (302 : Nat) < 400))
    (fun u => ⟨none, "denied", rfl⟩)

/-- C4: `resolve_redirect` is a pure function of its two string arguments
and returns: the location unchanged when it starts with `http://` or
`https://`; when the location starts with `/`, the scheme-and-host part
of the base (up to the first `/` after `://`) concatenated with the
location, falling back to naive concatenation of base and location when
the base has no `/` after its scheme; otherwise the base up to and
including its last `/` concatenated with the location. -/
theorem resolve_redirect_spec (base_url location : String) :
    (("http://".toList.isPrefixOf location.toList ||
        "https://".toList.isPrefixOf location.toList) = true →
      resolve_redirect base_url location = location) ∧
    (("http://".toList.isPrefixOf location.toList ||
        "https://".toList.isPrefixOf location.toList) = false →
      ['/'].isPrefixOf location.toList = true →
      ∀ idx, findSublist base_url.toList "://".toList = some idx →
        (∀ ps, findSublist (base_url.toList.drop (idx + 3)) ['/'] =
            some ps →
          resolve_redirect base_url location =
            (base_url.toList.take (idx + 3 + ps)).asString ++ location) ∧
        (findSublist (base_url.toList.drop (idx + 3)) ['/'] = none →
          resolve_redirect base_url location = base_url ++ location)) ∧
    (("http://".toList.isPrefixOf location.toList ||
        "https://".toList.isPrefixOf location.toList) = false →
      ['/'].isPrefixOf location.toList = false →
      ∀ ls, rfindChar base_url.toList '/' = some ls →
        resolve_redirect base_url location =
          (base_url.toList.take ls).asString ++ "/" ++ location) := by
  refine ⟨?_, ?_, ?_⟩
  · intro habs
    simp only [resolve_redirect]
    rw [if_pos habs]
  · intro habs hsl idx hidx
    have hnabs : ¬(("http://".toList.isPrefixOf location.toList ||
        "https://".toList.isPrefixOf location.toList) = true) :=
      fun hc => by rw [habs] at hc; exact Bool.noConfusion hc
    constructor
    · intro ps hps
      simp only [resolve_redirect]
      rw [if_neg hnabs, if_pos hsl]
      simp only [hidx, hps]
    · intro hps
      simp only [resolve_redirect]
      rw [if_neg hnabs, if_pos hsl]
      simp only [hidx, hps]
  · intro habs hsl ls hls
    have hnabs : ¬(("http://".toList.isPrefixOf location.toList ||
        "https://".toList.isPrefixOf location.toList) = true) :=
      fun hc => by rw [habs] at hc; exact Bool.noConfusion hc
    have hnsl : ¬(['/'].isPrefixOf location.toList = true) :=
      fun hc => by rw [hsl] at hc; exact Bool.noConfusion hc
    simp only [resolve_redirect]
    rw [if_neg hnabs, if_neg hnsl]
    simp only [hls]

/-- C4 witness: concrete instances of each branch of
`resolve_redirect_spec`: an absolute location, an absolute path against a
base with and without a path, and a relative location. -/
theorem resolve_redirect_spec_witness :
    resolve_redirect "https://a/b" "https://c/d" = "https://c/d" ∧
    resolve_redirect "https://host.com/x/y" "/z" = "https://host.com/z" ∧
    resolve_redirect "https://host.com" "/z" = "https://host.com/z" ∧
    resolve_redirect "https://host.com/x/y" "z" = "https://host.com/x/z" :=
  ⟨(resolve_redirect_spec "https://a/b" "https://c/d").1 (by decide),
   (((resolve_redirect_spec "https://host.com/x/y" "/z").2.1 (by decide)
      (by decide) 5 (by decide)).1 8 (by decide)).trans (by decide),
   (((resolve_redirect_spec "https://host.com" "/z").2.1 (by decide)
      (by decide) 5 (by decide)).2 (by decide)).trans (by decide),
   ((resolve_redirect_spec "https://host.com/x/y" "z").2.2 (by decide)
      (by decide) 18 (by decide)).trans (by decide)⟩

/-- C5: a first-hop 2xx response with an empty body makes the discovery
fetch fail with an `Http` error naming the empty response (not a `Parse`
error), while a 2xx response with a non-empty body ends the redirect loop
successfully with that body, after exactly one GET. -/
theorem discover_fetch_2xx (server : Server) (url : String)
    (status : Nat) (loc : Option String) (body : String)
    (h2 : 200 ≤ status) (h3 : status < 300)
    (hs : server 0 url = .ok status loc body) :
    (body = "" → discover_fetch server url =
      (.error (.Http ("Server returned empty response (status " ++
        toString status ++ ")")), 1)) ∧
    (body ≠ "" → discover_fetch server url = (.ok (url, body), 1)) := by
  have hnot : ¬(300 ≤ status ∧ status < 400) := by omega
  constructor
  · intro hb
    have hstep : fetchStep url (server 0 url) =
        .done (.error (.Http ("Server returned empty response (status " ++
          toString status ++ ")"))) := by
      rw [hs, hb]
      simp only [fetchStep]
      rw [if_neg hnot, if_pos (by rfl : "".isEmpty = true)]
    show fetchGo server 5 0 url = _
    simp only [fetchGo, hstep]
  · intro hb
    have hbe : ¬(body.isEmpty = true) :=
      fun hc => hb ((String.isEmpty_iff body).mp hc)
    have hstep : fetchStep url (server 0 url) = .done (.ok (url, body)) := by
      rw [hs]
      simp only [fetchStep]
      rw [if_neg hnot, if_neg hbe]
    show fetchGo server 5 0 url = _
    simp only [fetchGo, hstep]

/-- C5 witness: a 200 response with body `sess` ends the loop with that
body after one GET. -/
theorem discover_fetch_2xx_witness :
    discover_fetch (fun _ _ => .ok 200 none "sess") "https://a/session" =
      (.ok ("https://a/session", "sess"), 1) :=
  (discover_fetch_2xx (fun _ _ => .ok 200 none "sess") "https://a/session"
    200 none "sess" (by decide) (by decide) rfl).2 (by decide)

/-- C1: the account-resolution step of `discover` prefers
`primaryAccounts["urn:ietf:params:jmap:mail"]`; failing that it takes the
first account, in insertion order of the parsed mapping, whose capability
set contains the mail capability; if neither yields an account it fails
with an `Api` error enumerating the primary-capability keys and the
account ids. -/
theorem discover_account_resolution (s : JmapSession) (resp : String) :
    (∀ id, alookup s.primary_accounts mailCapability = some id →
      discover_account_id s resp = .ok id) ∧
    (alookup s.primary_accounts mailCapability = none →
      ∀ (k : Nat) (hk : k < s.accounts.length),
        (s.accounts.get ⟨k, hk⟩).2.contains mailCapability = true →
        (∀ j (hj : j < k),
          (s.accounts.get ⟨j, Nat.lt_trans hj hk⟩).2.contains
            mailCapability = false) →
        discover_account_id s resp = .ok (s.accounts.get ⟨k, hk⟩).1) ∧
    (alookup s.primary_accounts mailCapability = none →
      (∀ a ∈ s.accounts, a.2.contains mailCapability = false) →
      discover_account_id s resp = .error (.Api (noMailAccountMsg
        (s.primary_accounts.map (·.1)) (s.accounts.map (·.1)) resp))) := by
  refine ⟨?_, ?_, ?_⟩
  · intro id h
    simp only [discover_account_id, JmapSession.mail_account_id, h]
  · intro h k hk hp hbefore
    have hfind := find?_eq_get_of_first s.accounts
      (fun p => p.2.contains mailCapability) k hk hp hbefore
    simp only [discover_account_id, JmapSession.mail_account_id, h, hfind,
      Option.map_some']
  · intro h hnone
    have hfind : s.accounts.find?
        (fun p => p.2.contains mailCapability) = none := by
      rw [List.find?_eq_none]
      intro a ha hcontra
      simp only [hnone a ha] at hcontra
      exact Bool.false_ne_true hcontra
    simp only [discover_account_id, JmapSession.mail_account_id, h, hfind,
      Option.map_none']

/-- C1 witness: with no mail entry in `primaryAccounts` and the mail
capability first appearing on the second account, resolution returns the
second account's id. -/
theorem discover_account_resolution_witness :
    discover_account_id
      ⟨"https://api", [("urn:ietf:params:jmap:core", "c0")],
        [("a1", ["urn:ietf:params:jmap:core"]),
         ("a2", ["urn:ietf:params:jmap:mail"])]⟩ "raw" = .ok "a2" :=
  (discover_account_resolution
    ⟨"https://api", [("urn:ietf:params:jmap:core", "c0")],
      [("a1", ["urn:ietf:params:jmap:core"]),
       ("a2", ["urn:ietf:params:jmap:mail"])]⟩ "raw").2.1
    (by decide) 1 (by decide) (by decide)
    (fun j hj => by
      have hj0 : j = 0 := by omega
      subst hj0
      rfl)

/-- C6: for the empty id list, `get_emails` returns `Ok []` and issues
zero calls to the API endpoint, whatever the transport would answer. -/
theorem get_emails_empty_ids (transport : Except JmapError JmapResponse) :
    get_emails transport [] = (.ok [], 0) := rfl

/-- C7: with a non-empty id list, when the server's `Email/get` result
carries fewer emails than requested, `get_emails` still returns `Ok` with
the returned subset (with its one call issued); the missing ids are
surfaced only as the `missing_ids` diagnostic, which is exactly the set
of requested ids minus the returned email ids. -/
theorem get_emails_count_mismatch (r : EmailGetResponse)
    (rest : List (String × MethodResult)) (ids : List String)
    (hne : ids ≠ []) (hlt : r.list.length < ids.length) :
    get_emails (.ok ⟨("Email/get", .emailGet r) :: rest⟩) ids =
      (.ok r.list, 1) ∧
    ∀ id, id ∈ missing_ids ids r.list ↔
      id ∈ ids ∧ ¬ id ∈ r.list.map Email.id := by
  constructor
  · have h1 : ids.isEmpty = false := by
      cases ids with
      | nil => exact absurd rfl hne
      | cons a l => rfl
    simp [get_emails, h1, decodeEmailGet]
  · intro id
    simp [missing_ids, List.mem_filter]

/-- C7 witness: requesting ids a, b, c against a server returning only
a and c succeeds with the two returned emails, and b is exactly the
missing-id diagnostic. -/
theorem get_emails_count_mismatch_witness :
    get_emails (.ok ⟨[("Email/get", .emailGet
        ⟨[⟨"a", [], [], [], none, "", "", [], [], []⟩,
          ⟨"c", [], [], [], none, "", "", [], [], []⟩], ["b"]⟩)]⟩)
      ["a", "b", "c"] =
      (.ok [⟨"a", [], [], [], none, "", "", [], [], []⟩,
            ⟨"c", [], [], [], none, "", "", [], [], []⟩], 1) ∧
    ("b" ∈ missing_ids ["a", "b", "c"]
        [⟨"a", [], [], [], none, "", "", [], [], []⟩,
         ⟨"c", [], [], [], none, "", "", [], [], []⟩] ↔
      "b" ∈ ["a", "b", "c"] ∧
      ¬ "b" ∈ ([⟨"a", [], [], [], none, "", "", [], [], []⟩,
                ⟨"c", [], [], [], none, "", "", [], [], []⟩] :
          List Email).map Email.id) :=
  ⟨(get_emails_count_mismatch
      ⟨[⟨"a", [], [], [], none, "", "", [], [], []⟩,
        ⟨"c", [], [], [], none, "", "", [], [], []⟩], ["b"]⟩
      [] ["a", "b", "c"] (by decide) (by decide)).1,
   (get_emails_count_mismatch
      ⟨[⟨"a", [], [], [], none, "", "", [], [], []⟩,
        ⟨"c", [], [], [], none, "", "", [], [], []⟩], ["b"]⟩
      [] ["a", "b", "c"] (by decide) (by decide)).2 "b"⟩

/-- C8: for each single-call operation (`get_mailboxes`, `query_emails`,
`get_emails` with non-empty ids): an empty `methodResponses` array, or a
first entry whose method name differs from the requested one, is an
`Api "Unexpected response"` error; a first entry with the requested name
has its payload decoded and returned. -/
theorem single_call_first_response (resp : JmapResponse)
    (ids : List String) (hne : ids ≠ []) :
    (resp.method_responses = [] →
      get_mailboxes (.ok resp) = (.error (.Api "Unexpected response"), 1) ∧
      query_emails (.ok resp) = (.error (.Api "Unexpected response"), 1) ∧
      get_emails (.ok resp) ids =
        (.error (.Api "Unexpected response"), 1)) ∧
    (∀ name payload rest,
      resp.method_responses = (name, payload) :: rest →
      (name ≠ "Mailbox/get" →
        get_mailboxes (.ok resp) =
          (.error (.Api "Unexpected response"), 1)) ∧
      (name ≠ "Email/query" →
        query_emails (.ok resp) =
          (.error (.Api "Unexpected response"), 1)) ∧
      (name ≠ "Email/get" →
        get_emails (.ok resp) ids =
          (.error (.Api "Unexpected response"), 1))) ∧
    (∀ r rest, resp.method_responses = ("Mailbox/get", .mailboxGet r) :: rest →
      get_mailboxes (.ok resp) = (.ok r.list, 1)) ∧
    (∀ r rest, resp.method_responses = ("Email/query", .emailQuery r) :: rest →
      query_emails (.ok resp) = (.ok r.ids, 1)) ∧
    (∀ r rest, resp.method_responses = ("Email/get", .emailGet r) :: rest →
      get_emails (.ok resp) ids = (.ok r.list, 1)) := by
  have h1 : ids.isEmpty = false := by
    cases ids with
    | nil => exact absurd rfl hne
    | cons a l => rfl
  refine ⟨?_, ?_, ?_, ?_, ?_⟩
  · intro h
    exact ⟨by simp [get_mailboxes, h], by simp [query_emails, h],
      by simp [get_emails, h1, h]⟩
  · intro name payload rest h
    exact ⟨fun hn => by simp [get_mailboxes, h, hn],
      fun hn => by simp [query_emails, h, hn],
      fun hn => by simp [get_emails, h1, h, hn]⟩
  · intro r rest h
    simp [get_mailboxes, h, decodeMailboxGet]
  · intro r rest h
    simp [query_emails, h, decodeEmailQuery]
  · intro r rest h
    simp [get_emails, h1, h, decodeEmailGet]

/-- C8 witness: a concrete response whose single entry is named
`Email/query` while `Mailbox/get` was requested is an `Api` error, and
the empty response array is an `Api` error for `query_emails`. -/
theorem single_call_first_response_witness :
    get_mailboxes (.ok ⟨[("Email/query", .emailQuery ⟨["x"], 0, none⟩)]⟩) =
      (.error (.Api "Unexpected response"), 1) ∧
    query_emails (.ok ⟨[]⟩) = (.error (.Api "Unexpected response"), 1) :=
  ⟨((single_call_first_response ⟨[("Email/query", .emailQuery ⟨["x"], 0, none⟩)]⟩
      ["a"] (by decide)).2.1 "Email/query" (.emailQuery ⟨["x"], 0, none⟩) []
      rfl).1 (by decide),
   ((single_call_first_response ⟨[]⟩ ["a"] (by decide)).1 rfl).2.1⟩

end JmapWebmail
